import Mathlib

set_option maxRecDepth 65536

/-!
Shallow embedding of the chapter-scraping core of the Sino-verse repository:
the chapter extractor (`api/scrape.ts`) and the selector suggester
(`api/suggest.ts`).  HTML documents are modelled as a tree of element and
text nodes; cheerio queries are modelled as functions over that tree.
-/

namespace SinoVerse

/-! ### String utilities (JS `includes`, `trim`, `toLowerCase`) -/

/-- `listPrefixOf p l` : `p` is a prefix of `l` (JS `startsWith` on char lists). -/
def listPrefixOf : List Char → List Char → Bool
  | [], _ => true
  | _ :: _, [] => false
  | p :: ps, l :: ls => p == l && listPrefixOf ps ls

/-- `listSub p l` : `p` occurs as a contiguous sublist of `l` (JS `includes`). -/
def listSub (p : List Char) : List Char → Bool
  | [] => listPrefixOf p []
  | l :: ls => listPrefixOf p (l :: ls) || listSub p ls

/-- JS `hay.includes(needle)`. -/
def strContains (hay needle : String) : Bool :=
  listSub needle.data hay.data

/-- JS `hay.startsWith(pre)`. -/
def strStarts (hay pre : String) : Bool :=
  listPrefixOf pre.data hay.data

/-- JS `s.toLowerCase()` (ASCII case folding, which is all the code relies on). -/
def strLower (s : String) : String :=
  ⟨s.data.map Char.toLower⟩

/-- JS `s.trim()`. -/
def strTrim (s : String) : String :=
  ⟨(s.data.dropWhile Char.isWhitespace).reverse.dropWhile Char.isWhitespace |>.reverse⟩

/-- JS `s.length` (inputs are BMP, so code-unit count equals character count). -/
def strLen (s : String) : Nat := s.data.length

/-! ### DOM model -/

/-- A DOM node: an element with tag name, attribute list and children, or a text node. -/
inductive HNode where
  | elem (tag : String) (attrs : List (String × String)) (children : List HNode)
  | text (s : String)
deriving Repr

namespace HNode

mutual
/-- Structural equality of nodes (stands in for cheerio node identity). -/
def beqNode : HNode → HNode → Bool
  | .text s, .text t => s == t
  | .elem t₁ a₁ c₁, .elem t₂ a₂ c₂ => t₁ == t₂ && a₁ == a₂ && beqNodeList c₁ c₂
  | _, _ => false

def beqNodeList : List HNode → List HNode → Bool
  | [], [] => true
  | x :: xs, y :: ys => beqNode x y && beqNodeList xs ys
  | _, _ => false
end

instance : BEq HNode := ⟨beqNode⟩

/-- Attribute lookup (`$el.attr(name)`). -/
def attr? (name : String) : HNode → Option String
  | .elem _ attrs _ => (attrs.find? (fun a => a.1 == name)).map (·.2)
  | .text _ => none

def tagOf : HNode → String
  | .elem t _ _ => t
  | .text _ => ""

def isElem : HNode → Bool
  | .elem _ _ _ => true
  | .text _ => false

def childrenOf : HNode → List HNode
  | .elem _ _ cs => cs
  | .text _ => []

/-- The space-separated class tokens of an element's `class` attribute. -/
def classList (n : HNode) : List String :=
  match n.attr? "class" with
  | some c => (c.split Char.isWhitespace).filter (· ≠ "")
  | none => []

/-- `$el.hasClass tok` (cheerio `.tok` selector semantics). -/
def hasClass (tok : String) (n : HNode) : Bool :=
  n.classList.contains tok

mutual
/-- `$el.text()`: concatenated text of all descendant text nodes, in order. -/
def textOf : HNode → String
  | .text s => s
  | .elem _ _ cs => textOfList cs

def textOfList : List HNode → String
  | [] => ""
  | c :: cs => textOf c ++ textOfList cs
end

mutual
/-- All element nodes of a subtree in document (preorder) order, self included. -/
def selfAndDesc : HNode → List HNode
  | .text _ => []
  | .elem t a cs => .elem t a cs :: descList cs

def descList : List HNode → List HNode
  | [] => []
  | c :: cs => selfAndDesc c ++ descList cs
end

/-- Strict element descendants of a node (cheerio `$el.find` search space). -/
def descendants (n : HNode) : List HNode :=
  descList n.childrenOf

/-- `$el.find(tag).length` for a plain tag-name selector. -/
def countDescTag (t : String) (n : HNode) : Nat :=
  (n.descendants.filter (fun d => d.tagOf == t)).length

/-- Element children (`$el.children()`). -/
def childElems (n : HNode) : List HNode :=
  n.childrenOf.filter isElem

/-- Concatenated direct text-node children
(`$el.contents().filter(text).text()`). -/
def directText (n : HNode) : String :=
  textOfList (n.childrenOf.filter (fun c => !c.isElem))

end HNode

/-! ### CSS selectors (the shapes the repository feeds to cheerio as the
user-chosen content selector: `#id`, `.class`, or a plain tag name) -/

inductive Sel where
  | id (s : String)
  | cls (s : String)
  | tag (s : String)
deriving Repr, DecidableEq

def selToString : Sel → String
  | .id s => "#" ++ s
  | .cls s => "." ++ s
  | .tag s => s

def selMatches (s : Sel) (n : HNode) : Bool :=
  n.isElem &&
    match s with
    | .id i => n.attr? "id" == some i
    | .cls c => n.hasClass c
    | .tag t => n.tagOf == t

/-- `$(sel)` over a whole document: all matching elements in document order. -/
def queryAll (doc : HNode) (s : Sel) : List HNode :=
  (HNode.selfAndDesc doc).filter (selMatches s)

/-! ### Junk removal (`api/scrape.ts` lines 102-111) -/

/-- The `*:contains(...)` phrases of `junkSelectors`. -/
def junkPhrases : List String :=
  ["请在", "read at", "最新章节", "本站域名", "Advertisement", "章节报错",
   "Please support our website", "Share this chapter"]

/-- An element matched by some member of `junkSelectors`.  Text nodes are
never matched by CSS selectors. -/
def isJunk (n : HNode) : Bool :=
  n.isElem &&
    (junkPhrases.any (fun p => strContains n.textOf p)
      || n.tagOf == "script" || n.tagOf == "style" || n.tagOf == "iframe"
      || n.hasClass "ads" || n.attr? "id" == some "ads"
      || (match n.attr? "class" with
          | some c => strContains c "advert"
          | none => false)
      || (match n.attr? "id" with
          | some i => strContains i "advert"
          | none => false)
      || n.hasClass "ad" || n.hasClass "advertisement"
      || n.attr? "id" == some "ad-container"
      || n.attr? "id" == some "comments" || n.hasClass "comment-section"
      || n.hasClass "post-comments")

mutual
/-- `$content.find(junkSelectors.join(', ')).remove()` on a single matched
root: every descendant matching a junk selector (judged on the original
subtree) is removed together with its own subtree; the root is kept. -/
def stripJunk : HNode → HNode
  | .text s => .text s
  | .elem t a cs => .elem t a (stripJunkList cs)

def stripJunkList : List HNode → List HNode
  | [] => []
  | c :: cs => (if isJunk c then [] else [stripJunk c]) ++ stripJunkList cs
end

mutual
/-- The same junk removal, applied to the whole document: a node is removed
iff it is junk and lies strictly below some element matching `sel` (the
flag records whether a proper ancestor matched `sel`).  This is the tree
later queries (title, pagination links) observe, since the removal mutates
the shared DOM. -/
def stripJunkUnder (sel : Sel) : HNode → Bool → HNode
  | .text s, _ => .text s
  | .elem t a cs, under =>
      let under' := under || selMatches sel (.elem t a cs)
      .elem t a (stripJunkUnderList sel cs under')

def stripJunkUnderList (sel : Sel) : List HNode → Bool → List HNode
  | [], _ => []
  | c :: cs, under =>
      (if under && isJunk c then [] else [stripJunkUnder sel c under])
        ++ stripJunkUnderList sel cs under
end

/-! ### Paragraph assembly (`api/scrape.ts` lines 114-139) -/

/-- The selected content set after junk removal. -/
def contentRoots (doc : HNode) (sel : Sel) : List HNode :=
  (queryAll doc sel).map stripJunk

/-- `$content.find('p')` over the matched set. -/
def pDesc (roots : List HNode) : List HNode :=
  roots.flatMap (fun r => r.descendants.filter (fun d => d.tagOf == "p"))

/-- The primary strategy's per-`<p>` filter and collection. -/
def primaryParagraphs (roots : List HNode) : List String :=
  (pDesc roots).filterMap (fun p =>
    let t := strTrim p.textOf
    if t != "" && strLen t > 10 && !strContains (strLower t) "advertisement"
    then some t else none)

/-- The common `if (text && text.length > 5 && ...)` push at the end of each
fallback-loop iteration. -/
def pushPara (acc : List String) (t : String) : List String :=
  if t != "" && strLen t > 5 && !strContains (strLower t) "advertisement"
      && (acc.isEmpty || acc.getLast? != some t)
  then acc ++ [t] else acc

/-- One iteration of the fallback `$content.contents().each(...)` loop. -/
def fallbackStep (acc : List String) (c : HNode) : List String :=
  match c with
  | .elem name _ _ =>
      if name == "div" || name == "section" || name == "article" then
        pushPara acc (strTrim c.textOf)
      else if name == "br" then
        (if !acc.isEmpty && acc.getLast? != some "" then acc ++ [""] else acc)
      else acc
  | .text s => pushPara acc (strTrim s)

def fallbackParagraphs (roots : List HNode) : List String :=
  (roots.flatMap HNode.childrenOf).foldl fallbackStep []

/-- The primary strategy's guard:
`$paragraphs.length > 3 && $content.text().length > 200`. -/
def primaryApplies (roots : List HNode) : Bool :=
  decide ((pDesc roots).length > 3) && decide (strLen (HNode.textOfList roots) > 200)

/-- `finalParagraphs`: the paragraph list the extractor joins into `content`. -/
def extractParagraphs (doc : HNode) (sel : Sel) : List String :=
  let roots := contentRoots doc sel
  let primary := if primaryApplies roots then primaryParagraphs roots else []
  let paras := if primary.length < 3 then fallbackParagraphs roots else primary
  paras.filter (fun p => strLen (strTrim p) > 0)

/-! ### Title extraction (`api/scrape.ts` lines 25-30, 58-63, 141) -/

/-- Whether an element matches `allTitleSelectors`; `underSel` records that a
proper ancestor matches the user's content selector (for the
`` `${selector} h1/h2/h3` `` descendant selectors). -/
def titleElemMatches (underSel : Bool) (n : HNode) : Bool :=
  n.isElem &&
    (n.hasClass "chapter-title" || n.attr? "id" == some "chapter-title"
      || strContains n.textOf "分卷阅读"
      || strContains n.textOf "Chapter " || strContains n.textOf "CHAPTER "
      || strContains n.textOf "第"
      || n.hasClass "content-title" || n.hasClass "entry-title"
      || n.tagOf == "h1" || n.tagOf == "h2" || n.hasClass "toon-title"
      || (underSel && (n.tagOf == "h1" || n.tagOf == "h2" || n.tagOf == "h3")))

mutual
/-- `$(allTitleSelectors).first()`: first matching element in document order. -/
def findTitleElem (sel : Sel) : HNode → Bool → Option HNode
  | .text _, _ => none
  | .elem t a cs, under =>
      let n := HNode.elem t a cs
      if titleElemMatches under n then some n
      else findTitleElemList sel cs (under || selMatches sel n)

def findTitleElemList (sel : Sel) : List HNode → Bool → Option HNode
  | [], _ => none
  | c :: cs, under =>
      match findTitleElem sel c under with
      | some n => some n
      | none => findTitleElemList sel cs under
end

/-- `$(allTitleSelectors).first().text().trim() || "Unknown Chapter"`. -/
def onPageTitle (doc : HNode) (sel : Sel) : String :=
  match findTitleElem sel doc false with
  | some n => let t := strTrim n.textOf; if t == "" then "Unknown Chapter" else t
  | none => "Unknown Chapter"

/-! ### Pagination links (`api/scrape.ts` lines 7-23, 142-143) -/

def nextTexts : List String :=
  ["Next Chapter", "next chapter", "Next", "next", "下一章", "下章", "다음화", "다음 편"]

def prevTexts : List String :=
  ["Previous Chapter", "previous chapter", "Previous", "previous",
   "上一章", "上章", "이전화", "이전 편"]

def nextLinkMatches (n : HNode) : Bool :=
  (n.tagOf == "a" &&
    (nextTexts.any (fun t => strContains n.textOf t)
      || n.attr? "rel" == some "next" || n.hasClass "next-page"
      || n.hasClass "nav-next" || n.attr? "id" == some "next_chap"
      || n.hasClass "btn-next"))
  || n.attr? "id" == some "goNextBtn"

def prevLinkMatches (n : HNode) : Bool :=
  (n.tagOf == "a" &&
    (prevTexts.any (fun t => strContains n.textOf t)
      || n.attr? "rel" == some "prev" || n.hasClass "prev-page"
      || n.hasClass "nav-previous" || n.attr? "id" == some "prev_chap"
      || n.hasClass "btn-prev"))
  || n.attr? "id" == some "goPrevBtn"

/-- `$(linkSelectors).first().attr('href')`. -/
def firstHref (p : HNode → Bool) (doc : HNode) : Option String :=
  ((HNode.selfAndDesc doc).find? p).bind (·.attr? "href")

/-! ### Chapter-number regexes (`api/scrape.ts` lines 146-151)

Each JS regex of `combinedMatchers` is embedded as a "match at this
position" function; JS `String.match` semantics (leftmost successful start
position wins) is recovered by scanning positions left to right.  For these
patterns greedy matching without backtracking is exact, because the
character classes involved (`[-_]`, `\s`, `\d`, the closing literals) are
pairwise disjoint. -/

def isDigit (c : Char) : Bool := '0' ≤ c && c ≤ '9'

def digitsToNat (l : List Char) : Nat :=
  l.foldl (fun n c => n * 10 + (c.toNat - '0'.toNat)) 0

/-- Case-insensitive literal (the pattern is given lowercased). -/
def ciLit : List Char → List Char → Option (List Char)
  | [], l => some l
  | _ :: _, [] => none
  | p :: ps, c :: cs => if c.toLower == p then ciLit ps cs else none

/-- Case-sensitive literal. -/
def csLit : List Char → List Char → Option (List Char)
  | [], l => some l
  | _ :: _, [] => none
  | p :: ps, c :: cs => if c == p then csLit ps cs else none

/-- `\s*` -/
def skipWs (l : List Char) : List Char := l.dropWhile Char.isWhitespace

/-- `(\d+)` : greedy capture of at least one digit, returning (value, rest). -/
def capDigits (l : List Char) : Option (Nat × List Char) :=
  let ds := l.takeWhile isDigit
  if ds.isEmpty then none else some (digitsToNat ds, l.drop ds.length)

/-- Leftmost scan: try `f` at every start position, left to right. -/
def scanFor (f : List Char → Option Nat) : List Char → Option Nat
  | [] => f []
  | c :: cs =>
      match f (c :: cs) with
      | some n => some n
      | none => scanFor f cs

/-- `/chapter[_-]?\s*(\d+)/i` at a position. -/
def matchChapterAt (l : List Char) : Option Nat := do
  let r ← ciLit "chapter".data l
  let r := match r with
           | '_' :: t => t
           | '-' :: t => t
           | t => t
  let (n, _) ← capDigits (skipWs r)
  pure n

/-- `/第\s*(\d+)\s*[章話篇]/` at a position. -/
def matchHashAt (l : List Char) : Option Nat := do
  let r ← csLit "第".data l
  let (n, r) ← capDigits (skipWs r)
  match skipWs r with
  | c :: _ => if c == '章' || c == '話' || c == '篇' then some n else none
  | [] => none

/-- `/(\d+)\s*화/` at a position. -/
def matchHwaAt (l : List Char) : Option Nat := do
  let (n, r) ← capDigits l
  match skipWs r with
  | c :: _ => if c == '화' then some n else none
  | [] => none

/-- `/分卷阅读\s*(\d+)/` at a position. -/
def matchFenjuanAt (l : List Char) : Option Nat := do
  let r ← csLit "分卷阅读".data l
  let (n, _) ← capDigits (skipWs r)
  pure n

/-- `/\/(\d+)\.html$/i` at a position (anchored at the end). -/
def matchSlashHtmlAt (l : List Char) : Option Nat := do
  let r ← csLit "/".data l
  let (n, r) ← capDigits r
  let r ← ciLit ".html".data r
  if r.isEmpty then pure n else none

/-- `/\/(\d+)\/?$/` at a position (anchored at the end). -/
def matchSlashEndAt (l : List Char) : Option Nat := do
  let r ← csLit "/".data l
  let (n, r) ← capDigits r
  match r with
  | [] => pure n
  | ['/'] => pure n
  | _ => none

/-- `/\/novel\/(\d+)/i` at a position. -/
def matchNovelAt (l : List Char) : Option Nat := do
  let r ← ciLit "/novel/".data l
  let (n, _) ← capDigits r
  pure n

/-- `/view_?num=(\d+)/i` at a position. -/
def matchViewnumAt (l : List Char) : Option Nat := do
  let r ← ciLit "view".data l
  let r := match r with
           | '_' :: t => t
           | t => t
  let r ← ciLit "num=".data r
  let (n, _) ← capDigits r
  pure n

/-- The first four matchers (`combinedMatchers.slice(0, 4)`) run against the
title, in order; each is scanned leftmost across the whole title. -/
def titleNum (title : String) : Option Nat :=
  match scanFor matchChapterAt title.data with
  | some n => some n
  | none =>
    match scanFor matchHashAt title.data with
    | some n => some n
    | none =>
      match scanFor matchHwaAt title.data with
      | some n => some n
      | none => scanFor matchFenjuanAt title.data

/-- The last four matchers (`combinedMatchers.slice(4)`) run against the URL. -/
def urlNum (url : String) : Option Nat :=
  match scanFor matchSlashHtmlAt url.data with
  | some n => some n
  | none =>
    match scanFor matchSlashEndAt url.data with
    | some n => some n
    | none =>
      match scanFor matchNovelAt url.data with
      | some n => some n
      | none => scanFor matchViewnumAt url.data

/-- Lines 146-149: the title matchers run first; the URL matchers run when
`chapterNumber` is still falsy — that is, `null` *or `0`* (a title match of
`0` is overwritten by a URL match but survives when the URL yields none). -/
def inferChapterNumber (title url : String) : Option Int :=
  match titleNum title with
  | none => (urlNum url).map Int.ofNat
  | some n =>
      if n == 0 then
        match urlNum url with
        | some m => some (Int.ofNat m)
        | none => some 0
      else some (Int.ofNat n)

/-! ### URL resolution (`api/scrape.ts` lines 32-41)

The platform's WHATWG `new URL` is modelled for the URL shapes the
repository exercises: absolute `scheme://host/path` URLs, opaque
`scheme:path` URLs, and resolution of authority-, root-, query-, fragment-
and path-relative references against an absolute base.  A base with an
opaque path (`mailto:`, `data:`, ...) accepts only fragment references and
makes the constructor throw on anything else, matching the standard's
no-scheme state.  Dot-segment normalisation is not modelled (it rewrites
the path only and never changes the origin). -/

structure UrlRec where
  scheme : String
  hasAuth : Bool
  host : String
  rest : String
deriving Repr, DecidableEq

def isSchemeChar (c : Char) : Bool :=
  c.isAlpha || isDigit c || c == '+' || c == '-' || c == '.'

def splitSchemeGo (acc : List Char) : List Char → Option (String × List Char)
  | [] => none
  | c :: cs =>
      if c == ':' then some (⟨acc.reverse.map Char.toLower⟩, cs)
      else if isSchemeChar c then splitSchemeGo (c :: acc) cs
      else none

/-- Split a leading `scheme:` off a URL string, if present. -/
def splitScheme (l : List Char) : Option (String × List Char) :=
  match l with
  | c :: cs => if c.isAlpha then splitSchemeGo [c] cs else none
  | [] => none

def specialSchemes : List String := ["http", "https", "ws", "wss", "ftp", "file"]

/-- `new URL(s)` with no base: requires a scheme, else throws (`none`). -/
def parseAbs (s : String) : Option UrlRec :=
  match splitScheme s.data with
  | none => none
  | some (sch, rest) =>
      if listPrefixOf "//".data rest then
        let after := rest.drop 2
        let host := after.takeWhile (fun c => !(c == '/' || c == '?' || c == '#'))
        let tail := after.drop host.length
        if specialSchemes.contains sch && host.isEmpty then none
        else some ⟨sch, true, ⟨host⟩,
                   if tail.isEmpty && specialSchemes.contains sch then "/" else ⟨tail⟩⟩
      else some ⟨sch, false, "", ⟨rest⟩⟩

/-- `url.href` serialisation. -/
def hrefOf (u : UrlRec) : String :=
  u.scheme ++ (if u.hasAuth then "://" ++ u.host else ":") ++ u.rest

/-- `url.protocol` (scheme plus the trailing colon). -/
def protocolOf (u : UrlRec) : String := u.scheme ++ ":"

/-- The prefix of `rest` up to and including its last `/` (RFC 3986 merge). -/
def dirOf (rest : String) : String :=
  let cut := (rest.data.reverse.dropWhile (· ≠ '/')).reverse
  if cut.isEmpty then "/" else ⟨cut⟩

/-- The serialised path of `rest`, dropping any query and fragment. -/
def pathOnly (rest : String) : String :=
  ⟨rest.data.takeWhile (fun c => !(c == '?' || c == '#'))⟩

/-- `rest` up to any fragment (path plus query). -/
def pathAndQuery (rest : String) : String :=
  ⟨rest.data.takeWhile (fun c => !(c == '#'))⟩

/-- `new URL(rel, base)` for an already-parsed base; `none` when the
constructor throws.  An opaque-path base accepts only fragment references.
Against an authority-carrying base, a query reference keeps the base's
path, a fragment reference keeps path and query, and a path-relative
reference is merged against the base path's directory (query and fragment
stripped first, per RFC 3986 merge). -/
def resolveRel (base : UrlRec) (rel : String) : Option UrlRec :=
  match splitScheme rel.data with
  | some _ => parseAbs rel
  | none =>
      if strStarts rel "//" then
        let after := rel.data.drop 2
        let host := after.takeWhile (fun c => !(c == '/' || c == '?' || c == '#'))
        let tail := after.drop host.length
        some ⟨base.scheme, true, ⟨host⟩,
          if tail.isEmpty && specialSchemes.contains base.scheme then "/"
          else ⟨tail⟩⟩
      else if !base.hasAuth then
        if strStarts rel "#" then
          some { base with rest := pathAndQuery base.rest ++ rel }
        else none
      else if strStarts rel "/" then
        some { base with rest := rel }
      else if strStarts rel "?" then
        some { base with rest := pathOnly base.rest ++ rel }
      else if strStarts rel "#" then
        some { base with rest := pathAndQuery base.rest ++ rel }
      else
        some { base with rest := dirOf (pathOnly base.rest) ++ rel }

/-- `new URL(rel, baseStr).href`, `none` when the constructor throws (for
an unparsable base as well as for a resolution the base cannot host). -/
def resolveAgainst (baseStr rel : String) : Option String :=
  match parseAbs baseStr with
  | none => none
  | some b => (resolveRel b rel).map hrefOf

/-- `resolveUrl` (`api/scrape.ts` lines 32-41). -/
def resolveUrl (baseUrl : String) (relativeUrl : Option String) : Option String :=
  match relativeUrl with
  | none => none
  | some r =>
      if r == "" then none   -- `if (!relativeUrl) return null`
      else if strStarts r "http://" || strStarts r "https://" then
        match parseAbs r with
        | some _ => some r
        | none => none
      else if strStarts r "//" then
        match parseAbs baseUrl with
        | some b => some (protocolOf b ++ r)
        | none => none
      else resolveAgainst baseUrl r

/-! ### The extractor (`api/scrape.ts` handler, lines 93-161, after fetch) -/

structure ScrapedChapter where
  title : String
  chapterNumber : Option Int
  content : String
  nextUrl : Option String
  prevUrl : Option String
deriving Repr, DecidableEq

/-- The message thrown at lines 97-99. -/
def contentNotFoundMsg (sel : Sel) (url : String) : String :=
  "Content not found. The selector \"" ++ selToString sel
    ++ "\" did not match any elements on the page " ++ url
    ++ ". Try using the \"Suggest\" button."

/-- The diagnostic placeholder of line 153. -/
def placeholderContent (sel : Sel) (url : String) : String :=
  "Content not found with selector (\"" ++ selToString sel ++ "\") on " ++ url
    ++ " or was empty after cleaning."

/-- `onPageTitle` evaluated on the document the extractor actually queries
(the junk removal has already mutated it). -/
def extractTitle (doc : HNode) (sel : Sel) : String :=
  onPageTitle (stripJunkUnder sel doc false) sel

/-- `contentToReturn` (line 153): `finalContent || placeholder`. -/
def extractContent (doc : HNode) (sel : Sel) (url : String) : String :=
  let finalContent := String.intercalate "\n\n" (extractParagraphs doc sel)
  if finalContent == "" then placeholderContent sel url else finalContent

def extractNext (doc : HNode) (sel : Sel) (url : String) : Option String :=
  resolveUrl url (firstHref nextLinkMatches (stripJunkUnder sel doc false))

def extractPrev (doc : HNode) (sel : Sel) (url : String) : Option String :=
  resolveUrl url (firstHref prevLinkMatches (stripJunkUnder sel doc false))

/-- `extract(html, selector, sourceUrl)`: the handler body from
`cheerio.load` to the assembled `ScrapedChapter`; the thrown
content-not-found error is the `Except.error` case. -/
def extract (doc : HNode) (sel : Sel) (url : String) : Except String ScrapedChapter :=
  if (queryAll doc sel).isEmpty then
    .error (contentNotFoundMsg sel url)
  else
    .ok { title := extractTitle doc sel
          chapterNumber := inferChapterNumber (extractTitle doc sel) url
          content := extractContent doc sel url
          nextUrl := extractNext doc sel url
          prevUrl := extractPrev doc sel url }

/-! ### The selector suggester (`api/suggest.ts` handler, lines 39-119) -/

def forbiddenTags : List String :=
  ["nav", "header", "footer", "aside", "script", "style", "form", "button",
   "a", "ul", "li", "iframe", "figure", "figcaption", "input", "textarea",
   "select", "option"]

/-- `/^[a-zA-Z][a-zA-Z0-9_-]*$/` (id validation). -/
def idRegexTest (s : String) : Bool :=
  match s.data with
  | [] => false
  | c :: cs => c.isAlpha && cs.all (fun d => d.isAlpha || isDigit d || d == '_' || d == '-')

/-- `/^[a-zA-Z_-][a-zA-Z0-9_-]*$/` (class-token validation). -/
def classRegexTest (s : String) : Bool :=
  match s.data with
  | [] => false
  | c :: cs => (c.isAlpha || c == '_' || c == '-')
      && cs.all (fun d => d.isAlpha || isDigit d || d == '_' || d == '-')

/-- `currentClass.trim().split(/\s+/)`. -/
def classTokens (c : String) : List String :=
  ((strTrim c).split Char.isWhitespace).filter (· ≠ "")

/-- JS `Map.set`: an existing key keeps its insertion position, a new key is
appended.  Scores are represented exactly as integers scaled by 10: every
weight in the source (`0.5`, `30`, `10`, `0.1`, the bonuses, `15`) is a
multiple of 0.1, so scaling by 10 preserves every comparison. -/
def mapSet (m : List (Sel × Int)) (k : Sel) (v : Int) : List (Sel × Int) :=
  if m.any (fun kv => kv.1 == k) then
    m.map (fun kv => if kv.1 == k then (k, v) else kv)
  else m ++ [(k, v)]

/-- Mirrors one iteration of the
`$('body').find('div, article, section, main, p').each(...)` scoring loop:
`e` is the visited element, `anc` its ancestor chain (nearest first). -/
def suggestStep (doc : HNode) (m : List (Sel × Int)) (e : HNode)
    (anc : List HNode) : List (Sel × Int) :=
  if forbiddenTags.contains e.tagOf
      || anc.any (fun a => forbiddenTags.contains a.tagOf) then m
  else
    let id? := e.attr? "id"
    let cls? := e.attr? "class"
    let isLikely :=
      (match id? with
       | some i => strContains i "content" || strContains i "article"
           || strContains i "chapter"
       | none => false)
      || (match cls? with
          | some c => strContains c "content" || strContains c "article"
              || strContains c "chapter"
          | none => false)
    let dtl := strLen (strTrim e.directText)
    let pCount := e.countDescTag "p"
    if dtl < 50 && pCount < 1 && !isLikely then m
    else
      let linkCount := e.countDescTag "a"
      let childCount := e.childElems.length
      let score0 : Int := (dtl : Int) * 5 + (pCount : Int) * 300
        - (linkCount : Int) * 100 - (childCount : Int)
      let score1 : Int :=
        if id? == some "novel_content" || id? == some "content"
            || id? == some "chapter-content" || id? == some "article"
            || id? == some "main-content"
        then score0 + 100000 else score0
      let score2 : Int :=
        match cls? with
        | some c =>
            if strContains c "content" || strContains c "chapter-body"
                || strContains c "article-body" || strContains c "main-text"
                || strContains c "entry-content"
            then score1 + 5000 else score1
        | none => score1
      let score3 : Int :=
        if pCount > 5 then score2 + (pCount : Int) * 150 else score2
      let score4 : Int :=
        match id? with
        | some i =>
            if strContains i "sidebar" || strContains i "comment"
            then score3 - 50000 else score3
        | none => score3
      let score5 : Int :=
        match cls? with
        | some c =>
            if strContains c "sidebar" || strContains c "comment"
            then score4 - 50000 else score4
        | none => score4
      if score5 > 800 then
        let idSel : Option Sel :=
          match id? with
          | some i =>
              -- ids passing the regex contain no `.`, so the escaping step
              -- of the source is the identity here
              if !(anc.any (fun a => a.attr? "id" == some i)) && idRegexTest i
                  && (queryAll doc (Sel.id i)).length == 1
              then some (Sel.id i) else none
          | none => none
        let sel? : Option Sel :=
          match idSel with
          | some s => some s
          | none =>
              match cls? with
              | some c =>
                  if score5 > 3000 || pCount > 3 || dtl > 500 then
                    match (classTokens c).find?
                        (fun t => classRegexTest t && strLen t > 2) with
                    | some t =>
                        let ms := queryAll doc (Sel.cls t)
                        if ms.length ≥ 1 && ms.length ≤ 5
                            && ms.any (fun mel =>
                                 mel == e || mel.descendants.any (· == e))
                        then some (Sel.cls t) else none
                    | none => none
                  else none
              | none => none
        match sel? with
        | some s =>
            let finalScore :=
              if (queryAll doc s).length == 1 then score5 + 1000 else score5
            match m.find? (fun kv => kv.1 == s) with
            | none => mapSet m s finalScore
            | some kv => if finalScore > kv.2 then mapSet m s finalScore else m
        | none => m
      else m

mutual
/-- All elements of a subtree in document order, each with its ancestor
chain (nearest first). -/
def elemsWithAnc : HNode → List HNode → List (HNode × List HNode)
  | .text _, _ => []
  | .elem t a cs, anc =>
      let self := HNode.elem t a cs
      (self, anc) :: elemsWithAncList cs (self :: anc)

def elemsWithAncList : List HNode → List HNode → List (HNode × List HNode)
  | [], _ => []
  | c :: cs, anc => elemsWithAnc c anc ++ elemsWithAncList cs anc
end

/-- `$('body').find('div, article, section, main, p')`: candidate elements
in document order (strictly inside a `body` element). -/
def suggestCandidates (doc : HNode) : List (HNode × List HNode) :=
  (elemsWithAnc doc []).filter (fun p =>
    (p.2.any (fun a => a.tagOf == "body"))
      && (p.1.tagOf == "div" || p.1.tagOf == "article" || p.1.tagOf == "section"
          || p.1.tagOf == "main" || p.1.tagOf == "p"))

/-- The `scores` map after the whole loop. -/
def suggestScores (doc : HNode) : List (Sel × Int) :=
  (suggestCandidates doc).foldl (fun m p => suggestStep doc m p.1 p.2) []

/-- `filteredScores` (lines 97-103; the `5000` threshold scaled by 10). -/
def filteredScores (doc : HNode) : List (Sel × Int) :=
  (suggestScores doc).filter (fun kv =>
    let c := (queryAll doc kv.1).length
    c ≤ 10 || (kv.2 > 50000 && c ≤ 20))

/-- Insert one entry into a score-descending list, placing it after every
entry of equal or higher score. -/
def insertDesc (x : Sel × Int) : List (Sel × Int) → List (Sel × Int)
  | [] => [x]
  | y :: ys => if y.2 ≥ x.2 then y :: insertDesc x ys else x :: y :: ys

/-- Stable sort, descending by score: entries are inserted left to right,
each landing after all earlier entries of equal score, which reproduces the
stable order of the JS array sort. -/
def sortDesc (l : List (Sel × Int)) : List (Sel × Int) :=
  l.foldl (fun acc x => insertDesc x acc) []

/-- `sortedCandidates`: the selector strings in score-descending order. -/
def sortedCandidates (doc : HNode) : List String :=
  (sortDesc (filteredScores doc)).map (fun kv => selToString kv.1)

def leadingFixedSelectors : List String :=
  ["#content", "#novel_content", ".entry-content", "#main-content"]

def trailingFixedSelectors : List String :=
  [".chapter-content", "article", ".article-body", ".content", ".main-text"]

/-- JS `Set` iteration order: first occurrence wins. -/
def dedupFirst (seen : List String) : List String → List String
  | [] => []
  | x :: xs =>
      if seen.contains x then dedupFirst seen xs
      else x :: dedupFirst (x :: seen) xs

/-- `Array.from(suggestions).slice(0, 7)`: the handler's response body. -/
def suggestFinal (doc : HNode) : List String :=
  (dedupFirst []
    (leadingFixedSelectors ++ sortedCandidates doc ++ trailingFixedSelectors)).take 7

/-! ### Concrete documents used to test the claims -/

/-- The spec's scenario document
`<div id="content"><p>Hello</p><p>World</p></div>` as loaded by cheerio. -/
def docHelloWorld : HNode :=
  .elem "html" [] [.elem "head" [] [],
    .elem "body" [] [.elem "div" [("id", "content")]
      [.elem "p" [] [.text "Hello"], .elem "p" [] [.text "World"]]]]

/-- A content container whose prose sits in a bare text node carrying the
junk phrase `请在` (text nodes are not matched by element selectors, so the
junk removal pass cannot touch it). -/
def docJunkTextNode : HNode :=
  .elem "html" [] [.elem "head" [] [],
    .elem "body" [] [.elem "div" [("id", "content")]
      [.text "请在本站阅读最新章节内容"]]]

/-- A page whose heading reads "chapter 7 Chapter 42": the title contains
the substring "Chapter 42", but the leftmost title-regex match captures 7. -/
def docChapterSeven : HNode :=
  .elem "html" [] [.elem "head" [] [],
    .elem "body" [] [.elem "h1" [] [.text "chapter 7 Chapter 42"],
      .elem "div" [("id", "content")] [.text "x"]]]

/-- A page whose heading reads "Chapter 42". -/
def docChapterFortyTwo : HNode :=
  .elem "html" [] [.elem "head" [] [],
    .elem "body" [] [.elem "h1" [] [.text "Chapter 42"],
      .elem "div" [("id", "content")] [.text "x"]]]

/-- A page whose heading reads "Chapter 0", on a URL with no number pattern. -/
def docChapterZero : HNode :=
  .elem "html" [] [.elem "head" [] [],
    .elem "body" [] [.elem "h1" [] [.text "Chapter 0"],
      .elem "div" [("id", "content")] [.text "abc"]]]

/-- 250 characters of filler prose. -/
def longFiller : String := String.mk (List.replicate 250 'a')

/-- A content container with 4 `<p>` descendants (all of trimmed length ≤ 10)
and more than 200 characters of text: the primary strategy applies but
collects no paragraph, so the fallback walk supplies the content — including
the 7-character direct text node. -/
def docShortParas : HNode :=
  .elem "html" [] [.elem "head" [] [],
    .elem "body" [] [.elem "div" [("id", "content")]
      [.text "1234567",
       .elem "div" [] [.text longFiller],
       .elem "p" [] [.text "short"], .elem "p" [] [.text "short"],
       .elem "p" [] [.text "short"], .elem "p" [] [.text "short"]]]]

/-- A 60-character paragraph. -/
def para60 : HNode :=
  .elem "p" [] [.text (String.mk (List.replicate 60 'b'))]

/-- A content container where the primary strategy applies and yields four
long paragraphs. -/
def docLongParas : HNode :=
  .elem "html" [] [.elem "head" [] [],
    .elem "body" [] [.elem "div" [("id", "content")]
      [para60, para60, para60, para60]]]

/-- A short paragraph for the suggester scenario (18 characters, so the
`<p>` candidates themselves are skipped by the scoring loop). -/
def paraLorem : HNode := .elem "p" [] [.text "Lorem ipsum dolor."]

/-- The spec's suggester scenario: a single
`<article id="article-body">` holding 10 `<p>` tags and no links. -/
def docArticleBody : HNode :=
  .elem "html" [] [.elem "head" [] [],
    .elem "body" [] [.elem "article" [("id", "article-body")]
      [paraLorem, paraLorem, paraLorem, paraLorem, paraLorem,
       paraLorem, paraLorem, paraLorem, paraLorem, paraLorem]]]

/-- A document with an empty body: the suggester scores no candidate. -/
def docEmptyBody : HNode :=
  .elem "html" [] [.elem "head" [] [], .elem "body" [] []]

/-- The chapter record extracted from `docChapterFortyTwo`. -/
def recChapterFortyTwo : ScrapedChapter :=
  (extract docChapterFortyTwo (Sel.id "content")
      "https://ex.com/17.html").toOption.getD ⟨"", none, "", none, none⟩

/-- The chapter record extracted from `docChapterSeven`. -/
def recChapterSeven : ScrapedChapter :=
  (extract docChapterSeven (Sel.id "content")
      "https://ex.com/17.html").toOption.getD ⟨"", none, "", none, none⟩

/-! ## Helper lemmas -/

theorem listPrefixOf_self_append (b c : List Char) :
    listPrefixOf b (b ++ c) = true := by
  induction b with
  | nil => rfl
  | cons x xs ih => simp [listPrefixOf, ih]

theorem listSub_self_append (b c : List Char) : listSub b (b ++ c) = true := by
  cases b with
  | nil =>
      cases c with
      | nil => rfl
      | cons y ys => simp [listSub, listPrefixOf]
  | cons x xs =>
      have h := listPrefixOf_self_append (x :: xs) c
      have hdef : listSub (x :: xs) ((x :: xs) ++ c) =
          (listPrefixOf (x :: xs) ((x :: xs) ++ c) || listSub (x :: xs) (xs ++ c)) := rfl
      rw [hdef, h, Bool.true_or]

theorem listSub_append_left (b l : List Char) (h : listSub b l = true)
    (a : List Char) : listSub b (a ++ l) = true := by
  induction a with
  | nil => simpa using h
  | cons x xs ih =>
      have : listSub b (x :: (xs ++ l)) =
          (listPrefixOf b (x :: (xs ++ l)) || listSub b (xs ++ l)) := rfl
      simp only [List.cons_append, this, ih, Bool.or_true]

theorem listSub_middle (a b c : List Char) : listSub b (a ++ (b ++ c)) = true :=
  listSub_append_left b (b ++ c) (listSub_self_append b c) a

/-- Substring containment from a decomposition of the haystack's characters. -/
theorem strContains_of_data (hay b : String) (pre post : List Char)
    (h : hay.data = pre ++ (b.data ++ post)) : strContains hay b = true := by
  unfold strContains
  rw [h]
  exact listSub_middle pre b.data post

/-- The content-not-found error message names the selector. -/
theorem contentNotFoundMsg_names_selector (sel : Sel) (url : String) :
    strContains (contentNotFoundMsg sel url) (selToString sel) = true := by
  apply strContains_of_data _ _ ("Content not found. The selector \"".data)
    (("\" did not match any elements on the page " ++ url
      ++ ". Try using the \"Suggest\" button.").data)
  simp [contentNotFoundMsg, String.data_append]

/-- The content-not-found error message names the URL. -/
theorem contentNotFoundMsg_names_url (sel : Sel) (url : String) :
    strContains (contentNotFoundMsg sel url) url = true := by
  apply strContains_of_data _ _
    (("Content not found. The selector \"" ++ selToString sel
      ++ "\" did not match any elements on the page ").data)
    (". Try using the \"Suggest\" button.".data)
  simp [contentNotFoundMsg, String.data_append]

/-- The diagnostic placeholder is never the empty string. -/
theorem placeholderContent_ne_empty (sel : Sel) (url : String) :
    placeholderContent sel url ≠ "" := by
  intro h
  have h' := congrArg String.length h
  have hlit : ("Content not found with selector (\"" : String).length = 34 := rfl
  simp [placeholderContent, String.length_append, hlit] at h'

/-- `contentToReturn` is never the empty string (line 153's `||` fallback). -/
theorem extractContent_ne_empty (doc : HNode) (sel : Sel) (url : String) :
    extractContent doc sel url ≠ "" := by
  unfold extractContent
  cases hfc : (String.intercalate "\n\n" (extractParagraphs doc sel) == "") with
  | false =>
      simp only [hfc, Bool.false_eq_true, if_false]
      exact beq_eq_false_iff_ne.mp hfc
  | true =>
      simp only [hfc, if_true]
      exact placeholderContent_ne_empty sel url

/-- When the selector matches, `extract` succeeds with the assembled record. -/
theorem extract_ok_of_match (doc : HNode) (sel : Sel) (url : String)
    (h : queryAll doc sel ≠ []) :
    extract doc sel url =
      .ok ⟨extractTitle doc sel, inferChapterNumber (extractTitle doc sel) url,
           extractContent doc sel url, extractNext doc sel url,
           extractPrev doc sel url⟩ := by
  have hne : (queryAll doc sel).isEmpty = false := by
    cases hq : queryAll doc sel with
    | nil => exact absurd hq h
    | cons a l => rfl
  unfold extract
  simp [hne]

/-- Inversion: a successful extraction is exactly the assembled record. -/
theorem extract_ok_inv (doc : HNode) (sel : Sel) (url : String)
    (c : ScrapedChapter) (h : extract doc sel url = .ok c) :
    c = ⟨extractTitle doc sel, inferChapterNumber (extractTitle doc sel) url,
         extractContent doc sel url, extractNext doc sel url,
         extractPrev doc sel url⟩ := by
  unfold extract at h
  by_cases hq : (queryAll doc sel).isEmpty
  · simp [hq] at h
  · simp only [hq, Bool.false_eq_true, if_false] at h
    · cases h
      rfl

/-! ## Claim C1 -/

/-- C1 fails on the code: for
`<div id="content"><p>Hello</p><p>World</p></div>` with selector `#content`
the returned content is not `"Hello\n\nWorld"`. -/
theorem C1_counterexample :
    (extract docHelloWorld (Sel.id "content")
        "https://example.com/book").toOption.map ScrapedChapter.content
      ≠ some "Hello\n\nWorld" := by decide

/-- C1 (amended): on the scenario document the extractor returns the
diagnostic placeholder — two `<p>` descendants do not meet the primary
strategy's `> 3` threshold (nor the 200-character minimum), and the fallback
walk takes text only from `div`/`section`/`article` children and bare text
nodes, never from `<p>` children, so `finalContent` is empty and the
placeholder naming the selector and URL is substituted. -/
theorem C1_scenario_placeholder :
    extract docHelloWorld (Sel.id "content") "https://example.com/book" =
      .ok { title := "Unknown Chapter", chapterNumber := none,
            content := placeholderContent (Sel.id "content")
              "https://example.com/book",
            nextUrl := none, prevUrl := none } := by rfl

/-! ## Claim C2 -/

/-- C2: for every document and selector matching at least one element, the
returned content is a non-empty string (real prose or the diagnostic
placeholder), never the empty string. -/
theorem C2_content_nonempty (doc : HNode) (sel : Sel) (url : String)
    (h : queryAll doc sel ≠ []) :
    ∃ c, extract doc sel url = .ok c ∧ c.content ≠ "" :=
  ⟨_, extract_ok_of_match doc sel url h, extractContent_ne_empty doc sel url⟩

/-- C2 witness: a concrete matching selector yields a non-empty content. -/
theorem C2_witness :
    queryAll docJunkTextNode (Sel.id "content") ≠ [] ∧
      ∃ c, extract docJunkTextNode (Sel.id "content")
          "https://example.com/book" = .ok c ∧ c.content ≠ "" := by
  have hlen : (queryAll docJunkTextNode (Sel.id "content")).length = 1 := rfl
  have hne : queryAll docJunkTextNode (Sel.id "content") ≠ [] := by
    intro h
    rw [h] at hlen
    exact absurd hlen (by decide)
  exact ⟨hne, C2_content_nonempty docJunkTextNode (Sel.id "content")
    "https://example.com/book" hne⟩

/-! ## Claim C3 -/

/-- C3: extraction fails with the content-not-found error exactly when the
selector matches zero elements; the error message names both the selector
and the URL; and with at least one match a `ScrapedChapter` is returned. -/
theorem C3_contentNotFound (doc : HNode) (sel : Sel) (url : String) :
    ((extract doc sel url = .error (contentNotFoundMsg sel url))
        ↔ queryAll doc sel = [])
    ∧ (queryAll doc sel ≠ [] → ∃ c, extract doc sel url = .ok c)
    ∧ strContains (contentNotFoundMsg sel url) (selToString sel) = true
    ∧ strContains (contentNotFoundMsg sel url) url = true := by
  refine ⟨⟨?_, ?_⟩, fun h => ⟨_, extract_ok_of_match doc sel url h⟩,
    contentNotFoundMsg_names_selector sel url,
    contentNotFoundMsg_names_url sel url⟩
  · intro h
    by_contra hq
    rw [extract_ok_of_match doc sel url hq] at h
    exact Except.noConfusion h
  · intro h
    have hq : (queryAll doc sel).isEmpty = true := by rw [h]; rfl
    unfold extract
    simp [hq]

/-- C3 witness: the selector `#missing` on a concrete document fails with
the content-not-found error. -/
theorem C3_witness :
    extract docEmptyBody (Sel.id "missing") "https://ex.com/page" =
      .error (contentNotFoundMsg (Sel.id "missing") "https://ex.com/page") :=
  (C3_contentNotFound docEmptyBody (Sel.id "missing")
    "https://ex.com/page").1.mpr rfl

/-! ## Claim C4 -/

/-- C4 fails on the code: a page whose extracted title contains
"Chapter 42" and whose URL contains "/17.html" can still yield
`chapterNumber = 7`, because the title regex scan is leftmost — here the
title "chapter 7 Chapter 42x" matches at "chapter 7" first. -/
theorem C4_counterexample :
    extract docChapterSeven (Sel.id "content") "https://ex.com/17.html" =
        .ok recChapterSeven
    ∧ strContains recChapterSeven.title "Chapter 42" = true
    ∧ strContains "https://ex.com/17.html" "/17.html" = true
    ∧ recChapterSeven.chapterNumber = some 7
    ∧ recChapterSeven.chapterNumber ≠ some 42 :=
  ⟨rfl, by decide, by decide, by decide, by decide⟩

/-- C4 (amended): the title takes precedence over the URL in the sense that
whenever the leftmost title-pattern match on the extracted title captures
42, the returned `chapterNumber` is 42 and the URL patterns are never
consulted (they are consulted only when no title pattern matched, or when
the title match parsed to the falsy value 0). -/
theorem C4_title_precedence (doc : HNode) (sel : Sel) (url : String)
    (c : ScrapedChapter) (hok : extract doc sel url = .ok c)
    (h42 : titleNum c.title = some 42) : c.chapterNumber = some 42 := by
  have hc := extract_ok_inv doc sel url c hok
  have ht : c.title = extractTitle doc sel := by rw [hc]
  have hn : c.chapterNumber =
      inferChapterNumber (extractTitle doc sel) url := by rw [hc]
  rw [ht] at h42
  rw [hn]
  unfold inferChapterNumber
  rw [h42]
  rfl

/-- C4 witness: a page titled "Chapter 42" on a URL containing "/17.html"
yields chapter number 42. -/
theorem C4_witness : recChapterFortyTwo.chapterNumber = some 42 :=
  C4_title_precedence docChapterFortyTwo (Sel.id "content")
    "https://ex.com/17.html" recChapterFortyTwo rfl rfl

/-! ## Claim C5 -/

/-- C5 fails on the code: prose held in a bare text node is not subject to
junk removal (element selectors do not match text nodes), so a returned
paragraph can contain the configured junk phrase `请在` verbatim. -/
theorem C5_counterexample :
    extractParagraphs docJunkTextNode (Sel.id "content") =
        ["请在本站阅读最新章节内容"]
    ∧ (junkPhrases.any fun p =>
        strContains "请在本站阅读最新章节内容" p) = true :=
  ⟨rfl, rfl⟩

/-- Paragraphs produced by the primary strategy pass the case-insensitive
advertisement check. -/
theorem primaryParagraphs_no_ad (roots : List HNode) :
    ∀ p ∈ primaryParagraphs roots,
      strContains (strLower p) "advertisement" = false := by
  intro p hp
  rw [primaryParagraphs, List.mem_filterMap] at hp
  obtain ⟨el, -, heq⟩ := hp
  dsimp only at heq
  split at heq
  case isTrue h =>
    cases heq
    simp only [Bool.and_eq_true] at h
    simpa using h.2
  case isFalse h => exact absurd heq (by simp)

/-- `pushPara` preserves the advertisement-free invariant. -/
theorem pushPara_no_ad (acc : List String) (t : String)
    (h : ∀ p ∈ acc, strContains (strLower p) "advertisement" = false) :
    ∀ p ∈ pushPara acc t,
      strContains (strLower p) "advertisement" = false := by
  intro p hp
  unfold pushPara at hp
  split at hp
  case isTrue hc =>
    rcases List.mem_append.mp hp with h1 | h2
    · exact h p h1
    · have hpt : p = t := by simpa using h2
      subst hpt
      simp only [Bool.and_eq_true] at hc
      simpa using hc.1.2
  case isFalse => exact h p hp

theorem fallbackStep_text (acc : List String) (s : String) :
    fallbackStep acc (.text s) = pushPara acc (strTrim s) := rfl

theorem fallbackStep_elem (acc : List String) (name : String)
    (a : List (String × String)) (cs : List HNode) :
    fallbackStep acc (.elem name a cs) =
      if name == "div" || name == "section" || name == "article" then
        pushPara acc (strTrim (HNode.elem name a cs).textOf)
      else if name == "br" then
        (if !acc.isEmpty && acc.getLast? != some "" then acc ++ [""] else acc)
      else acc := rfl

/-- One fallback-loop iteration preserves the advertisement-free invariant
(the `<br>` branch appends only the empty string). -/
theorem fallbackStep_no_ad (acc : List String) (c : HNode)
    (h : ∀ p ∈ acc, strContains (strLower p) "advertisement" = false) :
    ∀ p ∈ fallbackStep acc c,
      strContains (strLower p) "advertisement" = false := by
  cases c with
  | text s =>
      rw [fallbackStep_text]
      exact pushPara_no_ad acc (strTrim s) h
  | elem name a cs =>
      rw [fallbackStep_elem]
      split
      · exact pushPara_no_ad _ _ h
      · split
        · split
          · intro p hp
            rcases List.mem_append.mp hp with h1 | h2
            · exact h p h1
            · have hp0 : p = "" := by simpa using h2
              subst hp0
              decide
          · exact h
        · exact h

theorem foldl_fallback_no_ad (cs : List HNode) (acc : List String)
    (h : ∀ p ∈ acc, strContains (strLower p) "advertisement" = false) :
    ∀ p ∈ cs.foldl fallbackStep acc,
      strContains (strLower p) "advertisement" = false := by
  induction cs generalizing acc with
  | nil => exact h
  | cons c cs ih => exact ih _ (fallbackStep_no_ad acc c h)

theorem fallbackParagraphs_no_ad (roots : List HNode) :
    ∀ p ∈ fallbackParagraphs roots,
      strContains (strLower p) "advertisement" = false :=
  foldl_fallback_no_ad _ [] (by simp)

/-- C5 (amended): no paragraph of the returned content contains the string
"advertisement" case-insensitively — this is the only junk phrase the
paragraph-assembly loops re-check after junk removal; phrases reachable
only through bare text nodes (such as `请在`) can survive. -/
theorem C5_no_advertisement (doc : HNode) (sel : Sel) :
    ∀ p ∈ extractParagraphs doc sel,
      strContains (strLower p) "advertisement" = false := by
  intro p hp
  unfold extractParagraphs at hp
  rw [List.mem_filter] at hp
  obtain ⟨hp, -⟩ := hp
  split at hp <;> split at hp <;>
    first
      | exact fallbackParagraphs_no_ad _ p hp
      | exact primaryParagraphs_no_ad _ p hp
      | simp at hp

/-- C5 witness: the paragraph extracted from `docJunkTextNode` passes the
advertisement check. -/
theorem C5_witness :
    strContains (strLower "请在本站阅读最新章节内容") "advertisement"
      = false :=
  C5_no_advertisement docJunkTextNode (Sel.id "content") _ (by decide)

/-! ## Claim C6 -/

/-- C6 fails on the code: the suggestion set is truncated to 7 entries after
the scored candidates are spliced between the four leading and the five
trailing fixed selectors, so the trailing conventional selectors `.content`
and `.main-text` never survive the cut — here even on a document with no
scored candidates at all. -/
theorem C6_counterexample :
    suggestFinal docEmptyBody =
      ["#content", "#novel_content", ".entry-content", "#main-content",
       ".chapter-content", "article", ".article-body"]
    ∧ ".content" ∉ suggestFinal docEmptyBody
    ∧ ".main-text" ∉ suggestFinal docEmptyBody :=
  ⟨rfl, by decide, by decide⟩

/-- The first four positions of every suggestion list are the four leading
fixed selectors. -/
theorem suggestFinal_take4 (doc : HNode) :
    (suggestFinal doc).take 4 = leadingFixedSelectors := rfl

/-- C6 (amended): the final suggestion list always contains the four
*leading* conventional selectors (`#content`, `#novel_content`,
`.entry-content`, `#main-content`) — indeed as its first four entries; the
trailing conventional selectors are included only as far as the 7-entry cap
allows. -/
theorem C6_leading_fixed (doc : HNode) :
    "#content" ∈ suggestFinal doc ∧ "#novel_content" ∈ suggestFinal doc
    ∧ ".entry-content" ∈ suggestFinal doc ∧ "#main-content" ∈ suggestFinal doc
    ∧ (suggestFinal doc).take 4 = leadingFixedSelectors := by
  have h := suggestFinal_take4 doc
  refine ⟨?_, ?_, ?_, ?_, h⟩ <;>
    · apply List.take_subset 4 (suggestFinal doc)
      rw [h]
      decide

/-! ## Claim C7 -/

/-- C7 fails on the code: on the scenario document (`<article
id="article-body">` with 10 `<p>` tags and no links) the first suggestion is
the hardcoded `#content`, not `#article-body` — the fixed selectors are
prepended before all scored candidates. -/
theorem C7_counterexample :
    suggestFinal docArticleBody =
      ["#content", "#novel_content", ".entry-content", "#main-content",
       "#article-body", ".chapter-content", "article"]
    ∧ (suggestFinal docArticleBody).head? ≠ some "#article-body" :=
  ⟨by decide, by decide⟩

/-- C7 (amended): on the scenario document `#article-body` is the sole (and
hence top) *scored* candidate and appears at position 4 of the suggestion
list, directly after the four hardcoded leading selectors. -/
theorem C7_article_body_position :
    sortedCandidates docArticleBody = ["#article-body"]
    ∧ (suggestFinal docArticleBody)[4]? = some "#article-body" :=
  ⟨by decide, by decide⟩

/-! ## Claim C8 -/

/-- C9 fails on the code: a page titled "Chapter 0" on a URL with no number
pattern yields `chapterNumber = 0`, which is present but not strictly
positive (`parseInt` of the captured digits can be zero, and the falsy-zero
URL fallback then finds nothing to overwrite it). -/
theorem C9_counterexample :
    (extract docChapterZero (Sel.id "content")
        "https://ex.com/book").toOption.map ScrapedChapter.chapterNumber
      = some (some 0)
    ∧ ¬ (0 : Int) > 0 :=
  ⟨by decide, by decide⟩

theorem inferChapterNumber_nonneg (t u : String) (n : Int)
    (h : inferChapterNumber t u = some n) : 0 ≤ n := by
  unfold inferChapterNumber at h
  split at h
  · obtain ⟨m, -, hm⟩ := Option.map_eq_some'.mp h
    rw [← hm]
    exact Int.ofNat_nonneg m
  · split at h
    · split at h
      · injection h with h'
        rw [← h']
        exact Int.ofNat_nonneg _
      · injection h with h'
        rw [← h']
    · injection h with h'
      rw [← h']
      exact Int.ofNat_nonneg _

/-- C9 (amended): whenever `chapterNumber` is present it is a *nonnegative*
integer (it is the `parseInt` of a captured digit string, which can be 0). -/
theorem C9_chapterNumber_nonneg (doc : HNode) (sel : Sel) (url : String)
    (c : ScrapedChapter) (n : Int) (hok : extract doc sel url = .ok c)
    (hn : c.chapterNumber = some n) : 0 ≤ n := by
  have hc := extract_ok_inv doc sel url c hok
  rw [hc] at hn
  exact inferChapterNumber_nonneg (extractTitle doc sel) url n hn

/-- C9 witness: the concrete extraction from `docChapterSeven` gives the
nonnegative chapter number 7. -/
theorem C9_witness : (0 : Int) ≤ 7 :=
  C9_chapterNumber_nonneg docChapterSeven (Sel.id "content")
    "https://ex.com/17.html" recChapterSeven 7 rfl (by decide)

/-! ## Claim C10 -/

/-- C10 fails on the code: a document where the primary strategy applies
(4 `<p>` descendants, 277 characters of text) but collects fewer than 3
paragraphs falls through to the fallback walk, which admits the 7-character
paragraph "1234567" — so content can contain a paragraph of trimmed length
≤ 10 even though the primary strategy applied. -/
theorem C10_counterexample :
    primaryApplies (contentRoots docShortParas (Sel.id "content")) = true
    ∧ "1234567" ∈ extractParagraphs docShortParas (Sel.id "content")
    ∧ ¬ 10 < strLen (strTrim "1234567") :=
  ⟨rfl, by decide, by decide⟩

/-- Paragraphs collected by the primary strategy have trimmed length
strictly greater than 10. -/
theorem primaryParagraphs_len (roots : List HNode) :
    ∀ p ∈ primaryParagraphs roots, 10 < strLen p := by
  intro p hp
  rw [primaryParagraphs, List.mem_filterMap] at hp
  obtain ⟨el, -, heq⟩ := hp
  dsimp only at heq
  split at heq
  case isTrue h =>
    cases heq
    simp only [Bool.and_eq_true] at h
    exact of_decide_eq_true h.1.2
  case isFalse h => exact absurd heq (by simp)

/-- When the primary strategy applies *and* collects at least 3 paragraphs,
the final paragraph list is the primary list (filtered for non-blankness). -/
theorem extractParagraphs_primary (doc : HNode) (sel : Sel)
    (hap : primaryApplies (contentRoots doc sel) = true)
    (h3 : ¬ (primaryParagraphs (contentRoots doc sel)).length < 3) :
    extractParagraphs doc sel =
      (primaryParagraphs (contentRoots doc sel)).filter
        (fun p => strLen (strTrim p) > 0) := by
  simp [extractParagraphs, hap, h3]

/-- C10 (amended): when the primary strategy applies and yields at least 3
paragraphs (so that the fallback walk is not consulted), every paragraph of
the returned content has trimmed length strictly greater than 10 — `<p>`
elements of trimmed length ≤ 10 are silently dropped. -/
theorem C10_primary_min_length (doc : HNode) (sel : Sel)
    (hap : primaryApplies (contentRoots doc sel) = true)
    (h3 : ¬ (primaryParagraphs (contentRoots doc sel)).length < 3) :
    ∀ p ∈ extractParagraphs doc sel, 10 < strLen p := by
  rw [extractParagraphs_primary doc sel hap h3]
  intro p hp
  exact primaryParagraphs_len _ p (List.mem_filter.mp hp).1

/-- C10 witness: a document with four 60-character paragraphs. -/
theorem C10_witness : 10 < strLen (String.mk (List.replicate 60 'b')) :=
  C10_primary_min_length docLongParas (Sel.id "content") rfl (by decide) _
    (by decide)

end SinoVerse
